import Mathlib

/-!
Shallow embedding of the `Log` class of the dmmdjs/dtools repository.

The repository carries two generations of the class:
* `src/classes/Log.js` — the current `Log` (options record with `autoClose`,
  `autoCreate`, `autoOpen`, `file`, `formatter`, `formatterParameters`,
  `recursive`, `truncate`; methods `close`, `create`, `delete`,
  `defaultFormatter`, `open`, `read`, `write`).
* `src/unnamed/part_000` — the legacy `Log` (private fields, options
  `automaticClose` / `automaticCreate` / `automaticOpen` / `formatter` /
  `logger` / `recursive`, a type-guarded options setter, and a formatter
  that also accepts non-array style values).

Definitions for the current class live in namespace `LogJs`; definitions for
the legacy class live in namespace `P0Log` (after `part_000`).  The host
filesystem and `node:path` are external collaborators; they are modelled by
a small explicit state (`FS`) and by posix-style path functions.
-/

/-- The escape character `\x1b` that opens every ANSI style sequence. -/
def escChar : Char := '\x1b'

/-- `true` iff the string contains no `\x1b` byte (no ANSI escape sequence
can be present without it). -/
def noEsc (s : String) : Bool := decide (escChar ∉ s.data)

/-- Characters drawn cyclically from `orig`, starting at position `cur`,
`n` characters in total; empty when `orig` is empty.  This is the repetition
of the pad string that JavaScript `String.prototype.padStart/padEnd`
performs. -/
def cycleTake (orig : List Char) : Nat → List Char → List Char
  | 0, _ => []
  | n + 1, [] =>
    match orig with
    | [] => []
    | c :: cs => c :: cycleTake orig n cs
  | n + 1, c :: cs => c :: cycleTake orig n cs

/-- JavaScript `String.prototype.padStart(target, pad)`: when the string is
shorter than `target` and `pad` is non-empty, prepend `target - length`
characters drawn cyclically from `pad`. -/
def padStart (s : String) (target : Nat) (pad : String) : String :=
  if pad.data.isEmpty then s
  else String.mk (cycleTake pad.data (target - s.length) pad.data) ++ s

/-- JavaScript `String.prototype.padEnd(target, pad)`: when the string is
shorter than `target` and `pad` is non-empty, append `target - length`
characters drawn cyclically from `pad`. -/
def padEnd (s : String) (target : Nat) (pad : String) : String :=
  if pad.data.isEmpty then s
  else s ++ String.mk (cycleTake pad.data (target - s.length) pad.data)

/-- A single style directive: the JavaScript code values are numbers or
strings. -/
inductive JCode where
  | num (n : Int)
  | str (s : String)
deriving DecidableEq, Repr

/-- Text of one code as interpolated into the escape sequence. -/
def codeText : JCode → String
  | .num n => toString n
  | .str s => s

/-- One element of a style-code list: a single code (number or string) or a
sub-list of codes that are joined by `";"`. -/
inductive JStyle where
  | atom (c : JCode)
  | group (cs : List JCode)
deriving DecidableEq, Repr

/-- The escape sequence built from one style-list element:
`` `\x1b[${Array.isArray(u) ? u.join(";") : u}m` ``. -/
def styleSeq : JStyle → String
  | .atom c => "\x1b[" ++ codeText c ++ "m"
  | .group cs => "\x1b[" ++ String.intercalate ";" (cs.map codeText) ++ "m"

/-- The opening sequence of a whole style-code list:
`styles.map(u => ...).join("")` (joining with the empty separator is
concatenation in order). -/
def openSeq : List JStyle → String
  | [] => ""
  | st :: l => styleSeq st ++ openSeq l

/-- `Array.prototype.join` applied to the three-element array
`[a, b, c].join(sep)`. -/
def joinThree (sep a b c : String) : String := a ++ sep ++ b ++ sep ++ c

/-- JavaScript `String.prototype.toUpperCase` for the ASCII alignment
strings in use: uppercase every character. -/
def jsToUpper (s : String) : String := String.mk (s.data.map Char.toUpper)

/-- JavaScript `Object.assign(target, source)` applied to two arrays: the
index properties `0 .. source.length - 1` of `source` overwrite those of
`target` in place; the indices of `target` beyond `source.length` (and the
`length` property, which is not enumerable) are left untouched. -/
def objectAssignList {α : Type} (target source : List α) : List α :=
  source ++ target.drop source.length

/-- The filesystem boundary (`node:fs`), modelled as the set of directories
plus the file contents, keyed by resolved path. -/
structure FS where
  dirs : List String
  files : List (String × String)
deriving Repr

/-- `fs.readFileSync(p).toString()` when the file exists. -/
def FS.fileContent (fs : FS) (p : String) : Option String :=
  (fs.files.find? (fun kv => kv.1 == p)).map Prod.snd

/-- `fs.existsSync(p)` for a file path. -/
def FS.fileExists (fs : FS) (p : String) : Bool :=
  (fs.fileContent p).isSome

/-- `fs.existsSync(p)` for a directory path. -/
def FS.dirExists (fs : FS) (p : String) : Bool :=
  fs.dirs.contains p

/-- Overwrite (or create) the file at `p` with content `c`. -/
def FS.setFile (fs : FS) (p c : String) : FS :=
  { fs with files := (p, c) :: fs.files.filter (fun kv => kv.1 != p) }

/-- Append to the file at `p` (`stream.write` on an open write stream whose
prior writes produced the current content). -/
def FS.appendFile (fs : FS) (p s : String) : FS :=
  fs.setFile p ((fs.fileContent p).getD "" ++ s)

/-- `fs.unlinkSync(p)`. -/
def FS.removeFile (fs : FS) (p : String) : FS :=
  { fs with files := fs.files.filter (fun kv => kv.1 != p) }

/-- `fs.mkdirSync(p, ...)`: register the directory. -/
def FS.mkdir (fs : FS) (p : String) : FS :=
  { fs with dirs := p :: fs.dirs }

/-- `path.isAbsolute` for the posix paths in use: the path starts with the
separator. -/
def jsIsAbsolute (p : String) : Bool := p.data.head? == some '/'


/-- `path.resolve(cwd, p)` (equivalently `path.resolve(p)` run in working
directory `cwd`) for the posix paths in use: an absolute input is returned
as-is, a relative one is joined onto `cwd`.  (Segment normalization of
`"."`/`".."`, which no code in this repository relies on, is omitted.) -/
def pathResolve (cwd p : String) : String :=
  if jsIsAbsolute p then p else cwd ++ "/" ++ p

/-- `path.dirname`: the path up to the last separator. -/
def dirname (p : String) : String :=
  String.intercalate "/" (p.splitOn "/").dropLast

/-- The synchronous errors thrown by the two `Log` classes; each constructor
carries in its doc the exact `Error` message of the source, and the spec's
taxonomy name. -/
inductive JsError where
  /-- `"Log file does not exist"` / `"Cannot open the write stream if the
  log file does not exist"` — the spec's `MissingFileError`. -/
  | missingFile
  /-- `"Write stream is is not opened"` (`Log.write`) — the spec's
  `NotOpenError`. -/
  | notOpen
  /-- `"Write stream is already closed"` (`Log.close`) — also the spec's
  `NotOpenError`. -/
  | alreadyClosed
  /-- `"Write stream is not closed"` / `"Cannot delete the log while the
  write stream is online"` — the spec's `StreamOpenError`. -/
  | streamOpen
deriving DecidableEq, Repr

namespace LogJs

/-- The merged formatter options of `Log.defaultFormatter` in
`src/classes/Log.js` (the `Object.assign` of the defaults with the caller's
record always yields a record carrying every field, so the formatter is
embedded as a function of the full record).  The external
`Intl.DateTimeFormat` collaborator is the function field
`dateTimeFormatter`; the timestamp value it receives is `dateTime`. -/
structure FmtOptions where
  dateTime : Int
  dateTimeAlignment : String
  dateTimeFormatter : Int → String
  dateTimeMinimumWidth : Nat
  dateTimePadding : String
  dateTimeStyling : List JStyle
  endText : String
  message : String
  messageStyling : List JStyle
  raw : Bool
  separator : String
  separatorStyling : List JStyle
  title : String
  titleAlignment : String
  titleMinimumWidth : Nat
  titlePadding : String
  titleStyling : List JStyle

/-- `parsedDateTime` of `Log.defaultFormatter`: render the timestamp with the
configured date-time formatter, then pad;
`padStart` when `dateTimeAlignment.toUpperCase() === "RIGHT"`, `padEnd`
otherwise (`jsToUpper` models the locale-free ASCII uppercasing). -/
def parsedDateTime (o : FmtOptions) : String :=
  if jsToUpper o.dateTimeAlignment == "RIGHT" then
    padStart (o.dateTimeFormatter o.dateTime) o.dateTimeMinimumWidth o.dateTimePadding
  else
    padEnd (o.dateTimeFormatter o.dateTime) o.dateTimeMinimumWidth o.dateTimePadding

/-- `parsedTitle` of `Log.defaultFormatter`: pad the title, `padStart` when
`titleAlignment.toUpperCase() === "RIGHT"`, `padEnd` otherwise. -/
def parsedTitle (o : FmtOptions) : String :=
  if jsToUpper o.titleAlignment == "RIGHT" then
    padStart o.title o.titleMinimumWidth o.titlePadding
  else
    padEnd o.title o.titleMinimumWidth o.titlePadding

/-- The styling lambda of `Log.defaultFormatter` (`src/classes/Log.js`
line 193): `v.styles.map(u => ...).join("") + v.text + "\x1b[0m"`.  The
reset is appended unconditionally. -/
def styled (styles : List JStyle) (text : String) : String :=
  openSeq styles ++ text ++ "\x1b[0m"

/-- `Log.defaultFormatter` of `src/classes/Log.js`: raw mode joins the three
padded/plain fields with the literal separator and appends the terminator;
otherwise each of the four fields is styled by `styled` and the three
content fields are joined by the styled separator. -/
def defaultFormatter (o : FmtOptions) : String :=
  if o.raw then
    joinThree o.separator (parsedDateTime o) (parsedTitle o) o.message ++ o.endText
  else
    joinThree (styled o.separatorStyling o.separator)
      (styled o.dateTimeStyling (parsedDateTime o))
      (styled o.titleStyling (parsedTitle o))
      (styled o.messageStyling o.message) ++ o.endText

/-- The instance options record of `src/classes/Log.js` after the
constructor's `Object.assign` with the defaults: every field is present.
The formatter parameter universe is the type `α` (JavaScript `any`);
`formatter` consumes the spread `formatterParameters` array. -/
structure Options (α : Type) where
  autoClose : Bool
  autoCreate : Bool
  autoOpen : Bool
  file : String
  formatter : List α → String
  formatterParameters : List α
  recursive : Bool
  truncate : Bool

/-- A per-call options record (`options` argument of `create` / `open` /
`delete` / `write`): each recognized field is either supplied or absent.
`Object.assign(defaults, this.options, options)` then yields the supplied
value when present and the instance value otherwise (the constructor
guarantees `this.options` carries every key, so the method-level defaults
never survive the merge). -/
structure CallOptions (α : Type) where
  autoClose : Option Bool
  autoCreate : Option Bool
  autoOpen : Option Bool
  formatter : Option (List α → String)
  formatterParameters : Option (List α)
  recursive : Option Bool
  truncate : Option Bool

/-- The `Log` instance state: the options record plus the write stream
(`this.stream !== null`).  Stream buffering is not modelled: the spec's
resource model (§5) makes every write logically applied on return, so an
open stream's effect is recorded directly in the `FS` file content. -/
structure Log (α : Type) where
  options : Options α
  streamOpen : Bool

/-- The getter `get file()`: `path.resolve(this.options.file)`, re-evaluated
against the current working directory `cwd` on every access. -/
def Log.file (cwd : String) (s : Log α) : String :=
  pathResolve cwd s.options.file

/-- `Log.prototype.create`: no-op when the file exists; otherwise ensure the
parent directory exists (creating it if missing) and create the empty file
(`fs.openSync(file, "w+")`).  The merged option consumed here is only the
`recursive` flag of `mkdirSync`, which the `FS` boundary model does not
distinguish. -/
def Log.create (cwd : String) (_o : CallOptions α) (s : Log α) (fs : FS) :
    Log α × FS :=
  let file := s.file cwd
  if fs.fileExists file then (s, fs)
  else
    let fs1 := if fs.dirExists (dirname file) then fs else fs.mkdir (dirname file)
    (s, fs1.setFile file "")

/-- `Log.prototype.open`: merged `autoCreate` gates auto-creation of a
missing file, else `MissingFileError`; no-op when the stream is already
open; otherwise `createWriteStream` truncates the file and the pre-read
content (empty when merged `truncate` is set) is written back. -/
def Log.open (cwd : String) (o : CallOptions α) (s : Log α) (fs : FS) :
    Except JsError (Log α × FS) :=
  let file := s.file cwd
  let autoCreate := o.autoCreate.getD s.options.autoCreate
  let truncate := o.truncate.getD s.options.truncate
  let step1 : Except JsError (Log α × FS) :=
    if fs.fileExists file then .ok (s, fs)
    else if autoCreate then .ok (Log.create cwd o s fs)
    else .error .missingFile
  match step1 with
  | .error e => .error e
  | .ok (s1, fs1) =>
    if s1.streamOpen then .ok (s1, fs1)
    else
      let content := if truncate then "" else (fs1.fileContent file).getD ""
      .ok ({ s1 with streamOpen := true }, fs1.setFile file content)

/-- `Log.prototype.close`: throws `"Write stream is already closed"` when no
stream is open; otherwise destroys the stream and clears the reference. -/
def Log.close (s : Log α) (fs : FS) : Except JsError (Log α × FS) :=
  if s.streamOpen then .ok ({ s with streamOpen := false }, fs)
  else .error .alreadyClosed

/-- `Log.prototype.delete`: `MissingFileError` when the file is absent; with
an open stream, merged `autoClose` decides between closing first and
`StreamOpenError`; finally `fs.unlinkSync`. -/
def Log.delete (cwd : String) (o : CallOptions α) (s : Log α) (fs : FS) :
    Except JsError (Log α × FS) :=
  let file := s.file cwd
  let autoClose := o.autoClose.getD s.options.autoClose
  if !(fs.fileExists file) then .error .missingFile
  else if s.streamOpen then
    if autoClose then
      match Log.close s fs with
      | .error e => .error e
      | .ok (s1, fs1) => .ok (s1, fs1.removeFile file)
    else .error .streamOpen
  else .ok (s, fs.removeFile file)

/-- `Log.prototype.write`.  The result always carries the post-call state
(the `Object.assign` onto `parsedOptions.formatterParameters` happens before
any precondition check, so a failing call still retains its mutation of the
instance-level array when that array was the merge result).  Key source
details embedded faithfully:
* `parsedOptions.formatterParameters` is the caller's array when supplied
  and otherwise the instance array itself (the method-level default is the
  misspelled key `formatterParameter`, so it never contributes), and
  `Object.assign` mutates that array in place;
* the auto-create gate reads `this.options.autoCreate` and the auto-open
  gate reads `this.options.autoOpen` — the instance flags, not the merged
  ones — while the self-heal calls receive the merged `parsedOptions`;
* the entry is `parsedOptions.formatter(...parsedOptions.formatterParameters)`
  written to the stream. -/
def Log.write (cwd : String) (o : CallOptions α) (rest : List α)
    (s : Log α) (fs : FS) : Log α × FS × Except JsError String :=
  let file := s.file cwd
  let params := objectAssignList (o.formatterParameters.getD s.options.formatterParameters) rest
  let s1 := if o.formatterParameters.isSome then s
    else { s with options := { s.options with formatterParameters := params } }
  let afterCreate : Option (Log α × FS) :=
    if fs.fileExists file then some (s1, fs)
    else if s1.options.autoCreate then some (Log.create cwd o s1 fs)
    else none
  match afterCreate with
  | none => (s1, fs, .error .missingFile)
  | some sfs2 =>
    let afterOpen : Except JsError (Log α × FS) :=
      if sfs2.1.streamOpen then .ok sfs2
      else if sfs2.1.options.autoOpen then
        Log.open cwd
          { o with autoCreate := some (o.autoCreate.getD sfs2.1.options.autoCreate),
                   truncate := some (o.truncate.getD sfs2.1.options.truncate) }
          sfs2.1 sfs2.2
      else .error .notOpen
    match afterOpen with
    | .error e => (sfs2.1, sfs2.2, .error e)
    | .ok sfs3 =>
      let entry := (o.formatter.getD sfs3.1.options.formatter) params
      (sfs3.1, sfs3.2.appendFile file entry, .ok entry)

end LogJs

namespace P0Log

/-- A style value of the legacy formatter: `number | string | (...)[]`. -/
inductive Styling where
  | single (c : JCode)
  | list (l : List JStyle)
deriving DecidableEq, Repr

/-- The merged formatter options of the legacy `Log.defaultFormatter`
(`src/unnamed/part_000`). -/
structure FmtOptions where
  dateTime : Int
  dateTimeAlignment : String
  dateTimeFormatter : Int → String
  dateTimeMinimumWidth : Nat
  dateTimePadding : String
  dateTimeStyling : Styling
  endText : String
  message : String
  messageStyling : Styling
  separator : String
  separatorStyling : Styling
  title : String
  titleAlignment : String
  titleMinimumWidth : Nat
  titlePadding : String
  titleStyling : Styling

/-- `dateTime` of the legacy formatter: the alignment comparison is the
exact (case-sensitive) test `override.dateTimeAlignment === "RIGHT"`. -/
def parsedDateTime (o : FmtOptions) : String :=
  if o.dateTimeAlignment == "RIGHT" then
    padStart (o.dateTimeFormatter o.dateTime) o.dateTimeMinimumWidth o.dateTimePadding
  else
    padEnd (o.dateTimeFormatter o.dateTime) o.dateTimeMinimumWidth o.dateTimePadding

/-- `title` of the legacy formatter: exact (case-sensitive) test
`override.titleAlignment === "RIGHT"`. -/
def parsedTitle (o : FmtOptions) : String :=
  if o.titleAlignment == "RIGHT" then
    padStart o.title o.titleMinimumWidth o.titlePadding
  else
    padEnd o.title o.titleMinimumWidth o.titlePadding

/-- The styling template of the legacy formatter (`part_000` lines 175-179):
an array styling maps each element to an escape sequence; a non-array
styling becomes a single escape sequence; the reset `\x1b[0m` is appended
UNLESS the styling is an array of length zero. -/
def styled (st : Styling) (text : String) : String :=
  match st with
  | .single c => "\x1b[" ++ codeText c ++ "m" ++ text ++ "\x1b[0m"
  | .list l => openSeq l ++ text ++ (if l.isEmpty then "" else "\x1b[0m")

/-- The legacy `Log.defaultFormatter`: always styles all four fields (it has
no raw flag), joins the three content fields with the styled separator and
appends the terminator. -/
def defaultFormatter (o : FmtOptions) : String :=
  joinThree (styled o.separatorStyling o.separator)
    (styled o.dateTimeStyling (parsedDateTime o))
    (styled o.titleStyling (parsedTitle o))
    (styled o.messageStyling o.message) ++ o.endText

/-- A JavaScript value as stored in an options record: primitive booleans
are distinct from `Boolean` wrapper objects (only the latter satisfy
`instanceof Boolean`); functions are identified by a tag. -/
inductive JSVal where
  | bool (b : Bool)
  | boolObject (b : Bool)
  | fn (tag : Nat)
  | num (n : Int)
  | str (s : String)
  | undef
deriving DecidableEq, Repr

/-- The `target` constructors used by the options setter. -/
inductive Target where
  | booleanT
  | functionT
deriving DecidableEq, Repr

/-- JavaScript `v instanceof target`: true only for objects whose prototype
chain contains `target.prototype`.  A primitive boolean is NOT an instance
of `Boolean`; a function IS an instance of `Function`. -/
def instanceOf : JSVal → Target → Bool
  | .boolObject _, .booleanT => true
  | .fn _, .functionT => true
  | _, _ => false

/-- The function tag of the legacy `Log.defaultFormatter` (the setter's
default for `formatter`). -/
def defaultFormatterTag : Nat := 0

/-- The function tag of the legacy `Log.defaultLogger` (the setter's default
for `logger`). -/
def defaultLoggerTag : Nat := 1

/-- The caller-supplied options object of the legacy `set options`: each
recognized key is present (with an arbitrary value) or absent. -/
structure SuppliedOptions where
  automaticClose : Option JSVal
  automaticCreate : Option JSVal
  automaticOpen : Option JSVal
  formatter : Option JSVal
  logger : Option JSVal
  recursive : Option JSVal
deriving DecidableEq, Repr

/-- The stored `#options` record produced by the legacy setter. -/
structure StoredOptions where
  automaticClose : JSVal
  automaticCreate : JSVal
  automaticOpen : JSVal
  formatter : JSVal
  logger : JSVal
  recursive : JSVal
deriving DecidableEq, Repr

/-- One row of the setter's `defaultOptions` table:
`parsedOptions[key] = (key in options && options[key] instanceof target) ?
options[key] : value`. -/
def pickOption (supplied : Option JSVal) (target : Target) (dflt : JSVal) : JSVal :=
  match supplied with
  | some v => if instanceOf v target then v else dflt
  | none => dflt

/-- The legacy `set options(options)` (`part_000` lines 341-358), applied to
the six rows of its `defaultOptions` table. -/
def setOptions (o : SuppliedOptions) : StoredOptions :=
  { automaticClose := pickOption o.automaticClose .booleanT (.bool true),
    automaticCreate := pickOption o.automaticCreate .booleanT (.bool true),
    automaticOpen := pickOption o.automaticOpen .booleanT (.bool true),
    formatter := pickOption o.formatter .functionT (.fn defaultFormatterTag),
    logger := pickOption o.logger .functionT (.fn defaultLoggerTag),
    recursive := pickOption o.recursive .booleanT (.bool true) }

/-- The legacy `set file(file)`:
`this.#file = path.resolve(process.cwd(), file)` — resolved once, at
assignment time, against the working directory of that moment. -/
def setFile (cwd input : String) : String := pathResolve cwd input

/-- The legacy instance state: the stored absolute `#file`, the boolean
options in effect, and the `#stream` reference together with its
`destroyed` flag (`destroy()` marks the stream destroyed synchronously;
the reference is nulled later, in the asynchronous close handler). -/
structure Log where
  file : String
  automaticClose : Bool
  automaticCreate : Bool
  automaticOpen : Bool
  recursive : Bool
  streamExists : Bool
  streamDestroyed : Bool
deriving DecidableEq, Repr

/-- The getter `get online()`: `!!this.stream && !this.stream.destroyed`. -/
def Log.online (s : Log) : Bool := s.streamExists && !s.streamDestroyed

/-- A per-call options override of the legacy lifecycle methods.  A
`truncate` key is carried although no legacy method reads it: passing
`{truncate: false}` places it in the merged override object, where it is
ignored. -/
structure CallOptions where
  automaticClose : Option Bool
  automaticCreate : Option Bool
  automaticOpen : Option Bool
  recursive : Option Bool
  truncate : Option Bool
deriving DecidableEq, Repr

/-- The legacy `create`: no-op when the file exists, else ensure the parent
directory and create the empty file (`fs.openSync(file, "w+")`). -/
def Log.create (_o : CallOptions) (s : Log) (fs : FS) : Log × FS :=
  if fs.fileExists s.file then (s, fs)
  else
    let dir := dirname s.file
    let fs1 := if fs.dirExists dir then fs else fs.mkdir dir
    (s, fs1.setFile s.file "")

/-- The effect of the legacy `close(options)`: auto-create the file when the
merged `automaticCreate` is set; return unchanged when not online;
otherwise destroy the stream (`#stream.destroy()` marks it destroyed
synchronously; the emitted close events are notification-boundary
effects). -/
def Log.closeEffect (o : CallOptions) (s : Log) (fs : FS) : Log × FS :=
  let s1fs1 := if o.automaticCreate.getD s.automaticCreate
    then Log.create o s fs else (s, fs)
  if !s1fs1.1.online then s1fs1
  else ({ s1fs1.1 with streamDestroyed := true }, s1fs1.2)

/-- The legacy `open(options)` (`part_000` lines 315-326): a missing file is
auto-created only when the RAW per-call `options.automaticCreate` is truthy
(the code tests `options.automaticCreate`, not the merged override; an
absent key is `undefined`, hence falsy), else `MissingFileError`; a no-op
when already online; otherwise `fs.createWriteStream(this.file)` opens the
stream and truncates the file — no content is preserved and no `truncate`
option is consulted. -/
def Log.open (o : CallOptions) (s : Log) (fs : FS) :
    Except JsError (Log × FS) :=
  let step1 : Except JsError (Log × FS) :=
    if fs.fileExists s.file then .ok (s, fs)
    else if o.automaticCreate.getD false then .ok (Log.create o s fs)
    else .error .missingFile
  match step1 with
  | .error e => .error e
  | .ok (s1, fs1) =>
    if s1.online then .ok (s1, fs1)
    else .ok ({ s1 with streamExists := true, streamDestroyed := false },
      fs1.setFile s1.file "")

/-- The legacy `delete(options)` (`part_000` lines 225-235): RETURNS the
instance, without raising, when the file is absent; with an online stream
the merged `automaticClose` decides between closing first and
`StreamOpenError`; finally `fs.unlinkSync`. -/
def Log.delete (o : CallOptions) (s : Log) (fs : FS) :
    Except JsError (Log × FS) :=
  let automaticClose := o.automaticClose.getD s.automaticClose
  if !(fs.fileExists s.file) then .ok (s, fs)
  else if s.online then
    if automaticClose then
      let s1fs1 := Log.closeEffect o s fs
      .ok (s1fs1.1, s1fs1.2.removeFile s.file)
    else .error .streamOpen
  else .ok (s, fs.removeFile s.file)

end P0Log

/-! ## Supporting lemmas -/

theorem cycleTake_length :
    ∀ (n : Nat) (orig cur : List Char), orig ≠ [] →
      (cycleTake orig n cur).length = n := by
  intro n
  induction n with
  | zero => intro orig cur _; rfl
  | succ n ih =>
    intro orig cur h
    cases cur with
    | nil =>
      cases orig with
      | nil => exact absurd rfl h
      | cons c cs => simp [cycleTake, ih _ _ h]
    | cons c cs => simp [cycleTake, ih _ _ h]

theorem cycleTake_mem :
    ∀ (n : Nat) (orig cur : List Char) (c : Char),
      c ∈ cycleTake orig n cur → c ∈ orig ∨ c ∈ cur := by
  intro n
  induction n with
  | zero => intro orig cur c h; simp [cycleTake] at h
  | succ n ih =>
    intro orig cur c h
    cases cur with
    | nil =>
      cases orig with
      | nil => simp [cycleTake] at h
      | cons a as =>
        simp only [cycleTake, List.mem_cons] at h
        rcases h with h | h
        · exact Or.inl (h ▸ List.mem_cons_self a as)
        · rcases ih _ _ _ h with h2 | h2
          · exact Or.inl h2
          · exact Or.inl (List.mem_cons_of_mem a h2)
    | cons a as =>
      simp only [cycleTake, List.mem_cons] at h
      rcases h with h | h
      · exact Or.inr (h ▸ List.mem_cons_self a as)
      · rcases ih _ _ _ h with h2 | h2
        · exact Or.inl h2
        · exact Or.inr (List.mem_cons_of_mem a h2)

theorem noEsc_iff (s : String) : noEsc s = true ↔ escChar ∉ s.data := by
  simp [noEsc]

theorem data_append (a b : String) : (a ++ b).data = a.data ++ b.data := by
  cases a; cases b; rfl

theorem noEsc_append (a b : String) :
    noEsc (a ++ b) = (noEsc a && noEsc b) := by
  simp [noEsc, data_append, not_or]

theorem noEsc_padStart (s : String) (w : Nat) (pad : String)
    (hs : noEsc s = true) (hp : noEsc pad = true) :
    noEsc (padStart s w pad) = true := by
  unfold padStart
  split
  · exact hs
  · rw [noEsc_append, hs, Bool.and_true]
    rw [noEsc_iff] at hp ⊢
    intro hmem
    rcases cycleTake_mem _ _ _ _ hmem with h | h <;> exact hp h

theorem noEsc_padEnd (s : String) (w : Nat) (pad : String)
    (hs : noEsc s = true) (hp : noEsc pad = true) :
    noEsc (padEnd s w pad) = true := by
  unfold padEnd
  split
  · exact hs
  · rw [noEsc_append, hs, Bool.true_and]
    rw [noEsc_iff] at hp ⊢
    intro hmem
    rcases cycleTake_mem _ _ _ _ hmem with h | h <;> exact hp h

theorem length_mk_list (l : List Char) : (String.mk l).length = l.length := rfl

theorem padStart_length (s : String) (w : Nat) (pad : String)
    (hp : pad.data ≠ []) : (padStart s w pad).length = max s.length w := by
  unfold padStart
  rw [if_neg (by simpa using hp)]
  rw [String.length_append]
  simp only [String.length_mk]
  rw [cycleTake_length _ _ _ hp]
  omega

theorem padEnd_length (s : String) (w : Nat) (pad : String)
    (hp : pad.data ≠ []) : (padEnd s w pad).length = max s.length w := by
  unfold padEnd
  rw [if_neg (by simpa using hp)]
  rw [String.length_append]
  simp only [String.length_mk]
  rw [cycleTake_length _ _ _ hp]
  omega

theorem padStart_keeps_text (s : String) (w : Nat) (pad : String) :
    ∃ q, padStart s w pad = q ++ s := by
  unfold padStart
  split
  · exact ⟨"", by simp⟩
  · exact ⟨_, rfl⟩

theorem padEnd_keeps_text (s : String) (w : Nat) (pad : String) :
    ∃ q, padEnd s w pad = s ++ q := by
  unfold padEnd
  split
  · exact ⟨"", by simp⟩
  · exact ⟨_, rfl⟩

theorem styleSeq_data (st : JStyle) :
    ∃ rest, (styleSeq st).data = escChar :: rest := by
  cases st with
  | atom c => exact ⟨_, by simp [styleSeq, data_append]; exact ⟨rfl, rfl⟩⟩
  | group cs => exact ⟨_, by simp [styleSeq, data_append]; exact ⟨rfl, rfl⟩⟩

theorem openSeq_cons_has_esc (st : JStyle) (l : List JStyle) :
    noEsc (openSeq (st :: l)) = false := by
  obtain ⟨rest, hdata⟩ := styleSeq_data st
  simp [openSeq, noEsc, data_append, hdata]

theorem noEsc_reset : noEsc "\x1b[0m" = false := by decide

theorem noEsc_parsedDateTime (o : LogJs.FmtOptions)
    (h1 : noEsc (o.dateTimeFormatter o.dateTime) = true)
    (h2 : noEsc o.dateTimePadding = true) :
    noEsc (LogJs.parsedDateTime o) = true := by
  unfold LogJs.parsedDateTime
  split
  · exact noEsc_padStart _ _ _ h1 h2
  · exact noEsc_padEnd _ _ _ h1 h2

theorem noEsc_parsedTitle (o : LogJs.FmtOptions)
    (h1 : noEsc o.title = true) (h2 : noEsc o.titlePadding = true) :
    noEsc (LogJs.parsedTitle o) = true := by
  unfold LogJs.parsedTitle
  split
  · exact noEsc_padStart _ _ _ h1 h2
  · exact noEsc_padEnd _ _ _ h1 h2

/-- A concrete formatter options record for the current `Log.defaultFormatter`
(non-raw, all four style-code lists empty, trivial widths). -/
def sampleFmt : LogJs.FmtOptions :=
  { dateTime := 0
    dateTimeAlignment := "LEFT"
    dateTimeFormatter := fun _ => "D"
    dateTimeMinimumWidth := 0
    dateTimePadding := " "
    dateTimeStyling := []
    endText := ""
    message := "M"
    messageStyling := []
    raw := false
    separator := "|"
    separatorStyling := []
    title := "T"
    titleAlignment := "LEFT"
    titleMinimumWidth := 0
    titlePadding := " "
    titleStyling := [] }

/-- A concrete formatter options record for the legacy formatter. -/
def sampleP0Fmt : P0Log.FmtOptions :=
  { dateTime := 0
    dateTimeAlignment := "LEFT"
    dateTimeFormatter := fun _ => "D"
    dateTimeMinimumWidth := 0
    dateTimePadding := " "
    dateTimeStyling := P0Log.Styling.list []
    endText := ""
    message := "M"
    messageStyling := P0Log.Styling.list []
    separator := "|"
    separatorStyling := P0Log.Styling.list []
    title := "T"
    titleAlignment := "LEFT"
    titleMinimumWidth := 0
    titlePadding := " "
    titleStyling := P0Log.Styling.list [] }

/-! ## Claim theorems -/

/-- **C3 counterexample.**  The claim predicts that a field whose style-code
list is empty renders as plain text with zero escape bytes.  In the current
`Log.defaultFormatter` (`src/classes/Log.js`), a non-raw entry whose four
style-code lists are all empty still carries the reset sequence `\x1b[0m`
after every field, so the output contains escape bytes. -/
theorem c3_empty_styling_counterexample :
    LogJs.defaultFormatter sampleFmt
      = "D\x1b[0m|\x1b[0mT\x1b[0m|\x1b[0mM\x1b[0m"
    ∧ noEsc (LogJs.defaultFormatter sampleFmt) = false := by
  constructor
  · decide
  · decide

/-- **C3 (amended).**  In the legacy formatter (`part_000`) the claimed
property holds: an empty style-code list renders the field untouched (no
opening sequence and no reset), while a non-empty list — including the
singleton no-op list `[0]` — wraps the text in the opening sequence(s) and
the reset.  In the current formatter (`src/classes/Log.js`) an empty
style-code list emits no opening sequence but the reset `\x1b[0m` is still
appended, so the rendered field always contains escape bytes. -/
theorem c3_empty_styling_amended :
    (∀ t, LogJs.styled [] t = t ++ "\x1b[0m")
    ∧ (∀ t, noEsc (LogJs.styled [] t) = false)
    ∧ (∀ st l t, LogJs.styled (st :: l) t = openSeq (st :: l) ++ t ++ "\x1b[0m")
    ∧ (∀ st l, noEsc (openSeq (st :: l)) = false)
    ∧ (∀ t, P0Log.styled (P0Log.Styling.list []) t = t)
    ∧ (∀ t, noEsc (P0Log.styled (P0Log.Styling.list []) t) = noEsc t)
    ∧ (∀ st l t, P0Log.styled (P0Log.Styling.list (st :: l)) t
        = openSeq (st :: l) ++ t ++ "\x1b[0m")
    ∧ (∀ t, P0Log.styled (P0Log.Styling.list [JStyle.atom (JCode.num 0)]) t
        = "\x1b[0m" ++ t ++ "\x1b[0m") := by
  refine ⟨fun t => by simp [LogJs.styled, openSeq], fun t => ?_,
    fun st l t => rfl, fun st l => openSeq_cons_has_esc st l,
    fun t => by simp [P0Log.styled, openSeq], fun t => by simp [P0Log.styled, openSeq],
    fun st l t => by simp [P0Log.styled], fun t => ?_⟩
  · simp [LogJs.styled, openSeq, noEsc_append, noEsc_reset]
  · simp [P0Log.styled, openSeq, styleSeq, codeText]
    rfl

/-- **C4 counterexample.**  The claim says the alignment comparison is
case-insensitive for every formatter call.  The legacy formatter
(`part_000`) compares with the exact test `=== "RIGHT"`, so the lowercase
alignment `"right"`, which the claim requires to pad-start, pads at the end
instead. -/
theorem c4_case_sensitivity_counterexample :
    P0Log.parsedTitle
      { sampleP0Fmt with titleAlignment := "right", title := "AB",
                         titleMinimumWidth := 5, titlePadding := "-" }
      = "AB---"
    ∧ padStart "AB" 5 "-" = "---AB"
    ∧ ("AB---" : String) ≠ "---AB" := by
  refine ⟨by decide, by decide, by decide⟩

/-- **C4 (amended).**  Timestamp and title are each padded to their minimum
width with their pad string — `padStart` for a RIGHT alignment, `padEnd`
otherwise — and the comparison is case-insensitive in the current
`Log.defaultFormatter` (`toUpperCase()` before the test) but exact
case-sensitive equality with `"RIGHT"` in the legacy formatter.  With a
non-empty pad string the padded field has length `max (length text) width`,
and padding always keeps the original text intact at the side opposite the
alignment. -/
theorem c4_alignment_padding_amended :
    (∀ (o : LogJs.FmtOptions), jsToUpper o.titleAlignment = "RIGHT" →
      LogJs.parsedTitle o = padStart o.title o.titleMinimumWidth o.titlePadding)
    ∧ (∀ (o : LogJs.FmtOptions), jsToUpper o.titleAlignment ≠ "RIGHT" →
      LogJs.parsedTitle o = padEnd o.title o.titleMinimumWidth o.titlePadding)
    ∧ (∀ (o : LogJs.FmtOptions) (a b : String), jsToUpper a = jsToUpper b →
      LogJs.parsedTitle { o with titleAlignment := a }
        = LogJs.parsedTitle { o with titleAlignment := b })
    ∧ (∀ (o : LogJs.FmtOptions), jsToUpper o.dateTimeAlignment = "RIGHT" →
      LogJs.parsedDateTime o
        = padStart (o.dateTimeFormatter o.dateTime) o.dateTimeMinimumWidth o.dateTimePadding)
    ∧ (∀ (o : LogJs.FmtOptions), jsToUpper o.dateTimeAlignment ≠ "RIGHT" →
      LogJs.parsedDateTime o
        = padEnd (o.dateTimeFormatter o.dateTime) o.dateTimeMinimumWidth o.dateTimePadding)
    ∧ (∀ (o : P0Log.FmtOptions), o.titleAlignment = "RIGHT" →
      P0Log.parsedTitle o = padStart o.title o.titleMinimumWidth o.titlePadding)
    ∧ (∀ (o : P0Log.FmtOptions), o.titleAlignment ≠ "RIGHT" →
      P0Log.parsedTitle o = padEnd o.title o.titleMinimumWidth o.titlePadding)
    ∧ (∀ (o : P0Log.FmtOptions), o.dateTimeAlignment = "RIGHT" →
      P0Log.parsedDateTime o
        = padStart (o.dateTimeFormatter o.dateTime) o.dateTimeMinimumWidth
            o.dateTimePadding)
    ∧ (∀ (o : P0Log.FmtOptions), o.dateTimeAlignment ≠ "RIGHT" →
      P0Log.parsedDateTime o
        = padEnd (o.dateTimeFormatter o.dateTime) o.dateTimeMinimumWidth
            o.dateTimePadding)
    ∧ (∀ (s : String) (w : Nat) (p : String), p.data ≠ [] →
      (padStart s w p).length = max s.length w
        ∧ (padEnd s w p).length = max s.length w)
    ∧ (∀ (s : String) (w : Nat) (p : String),
      (∃ q, padStart s w p = q ++ s) ∧ ∃ q, padEnd s w p = s ++ q) := by
  refine ⟨fun o h => by simp [LogJs.parsedTitle, h],
    fun o h => by simp [LogJs.parsedTitle, h],
    fun o a b hab => ?_,
    fun o h => by simp [LogJs.parsedDateTime, h],
    fun o h => by simp [LogJs.parsedDateTime, h],
    fun o h => by simp [P0Log.parsedTitle, h],
    fun o h => by simp [P0Log.parsedTitle, h],
    fun o h => by simp [P0Log.parsedDateTime, h],
    fun o h => by simp [P0Log.parsedDateTime, h],
    fun s w p hp => ⟨padStart_length s w p hp, padEnd_length s w p hp⟩,
    fun s w p => ⟨padStart_keeps_text s w p, padEnd_keeps_text s w p⟩⟩
  simp only [LogJs.parsedTitle, hab]

/-- **C4 witness** (the spec's Scenario D, with a mixed-case alignment):
applying `c4_alignment_padding_amended` to title `"AB"`, width `10`,
padding `"-"`, alignment `"Right"` yields the pad-start rendering
`"--------AB"`; and the legacy formatter's timestamp field with the exact
alignment `"RIGHT"` is pad-started as well. -/
theorem c4_alignment_padding_witness :
    LogJs.parsedTitle
      { sampleFmt with titleAlignment := "Right", title := "AB",
                       titleMinimumWidth := 10, titlePadding := "-" }
      = padStart "AB" 10 "-"
    ∧ padStart "AB" 10 "-" = "--------AB"
    ∧ P0Log.parsedDateTime
        { sampleP0Fmt with dateTimeAlignment := "RIGHT",
                           dateTimeMinimumWidth := 3, dateTimePadding := "-" }
      = padStart "D" 3 "-"
    ∧ padStart "D" 3 "-" = "--D" :=
  ⟨c4_alignment_padding_amended.1
      { sampleFmt with titleAlignment := "Right", title := "AB",
                       titleMinimumWidth := 10, titlePadding := "-" }
      (by decide),
    by decide,
    c4_alignment_padding_amended.2.2.2.2.2.2.2.1
      { sampleP0Fmt with dateTimeAlignment := "RIGHT",
                         dateTimeMinimumWidth := 3, dateTimePadding := "-" }
      rfl,
    by decide⟩

/-- **C8.**  With the raw flag set, `Log.defaultFormatter`
(`src/classes/Log.js`) returns exactly the padded timestamp, padded title
and message joined by the literal separator followed by the terminator, for
every value of the four style-code lists (they are never consulted); and
when the rendered inputs themselves carry no `\x1b` byte, the output
carries none either — styling introduces no escape sequence. -/
theorem c8_raw_mode_no_escape (o : LogJs.FmtOptions) (hraw : o.raw = true)
    (hdt : noEsc (o.dateTimeFormatter o.dateTime) = true)
    (hdp : noEsc o.dateTimePadding = true)
    (hti : noEsc o.title = true) (htp : noEsc o.titlePadding = true)
    (hms : noEsc o.message = true) (hsep : noEsc o.separator = true)
    (hend : noEsc o.endText = true) :
    LogJs.defaultFormatter o
      = LogJs.parsedDateTime o ++ o.separator ++ LogJs.parsedTitle o
        ++ o.separator ++ o.message ++ o.endText
    ∧ noEsc (LogJs.defaultFormatter o) = true := by
  have heq : LogJs.defaultFormatter o
      = LogJs.parsedDateTime o ++ o.separator ++ LogJs.parsedTitle o
        ++ o.separator ++ o.message ++ o.endText := by
    simp [LogJs.defaultFormatter, hraw, joinThree]
  refine ⟨heq, ?_⟩
  rw [heq]
  simp [noEsc_append, noEsc_parsedDateTime o hdt hdp,
    noEsc_parsedTitle o hti htp, hms, hsep, hend]

/-- **C8 witness**: `c8_raw_mode_no_escape` applied to a concrete record
with the raw flag set and non-empty style-code lists. -/
theorem c8_raw_mode_no_escape_witness :
    LogJs.defaultFormatter
      { sampleFmt with raw := true,
                       dateTimeStyling := [JStyle.atom (JCode.num 94)],
                       messageStyling := [JStyle.atom (JCode.num 92)] }
      = LogJs.parsedDateTime
          { sampleFmt with raw := true,
                           dateTimeStyling := [JStyle.atom (JCode.num 94)],
                           messageStyling := [JStyle.atom (JCode.num 92)] }
        ++ "|"
        ++ LogJs.parsedTitle
          { sampleFmt with raw := true,
                           dateTimeStyling := [JStyle.atom (JCode.num 94)],
                           messageStyling := [JStyle.atom (JCode.num 92)] }
        ++ "|" ++ "M" ++ ""
    ∧ noEsc (LogJs.defaultFormatter
        { sampleFmt with raw := true,
                         dateTimeStyling := [JStyle.atom (JCode.num 94)],
                         messageStyling := [JStyle.atom (JCode.num 92)] }) = true :=
  c8_raw_mode_no_escape
    { sampleFmt with raw := true,
                     dateTimeStyling := [JStyle.atom (JCode.num 94)],
                     messageStyling := [JStyle.atom (JCode.num 92)] }
    rfl (by decide) (by decide) (by decide) (by decide) (by decide)
    (by decide) (by decide)

/-- A concrete instance options record for the current class (the
constructor defaults, with a trivial formatter over `Nat` parameters). -/
def sampleOptions : LogJs.Options Nat :=
  { autoClose := false
    autoCreate := false
    autoOpen := false
    file := "logs/latest.log"
    formatter := fun _ => "E"
    formatterParameters := []
    recursive := true
    truncate := false }

/-- A concrete instance of the current class, stream closed. -/
def sampleLog : LogJs.Log Nat :=
  { options := sampleOptions, streamOpen := false }

/-- The empty per-call options record (`{}`). -/
def noCall : LogJs.CallOptions Nat :=
  { autoClose := none
    autoCreate := none
    autoOpen := none
    formatter := none
    formatterParameters := none
    recursive := none
    truncate := none }

/-- The empty per-call options record of the legacy class. -/
def noP0Call : P0Log.CallOptions :=
  { automaticClose := none
    automaticCreate := none
    automaticOpen := none
    recursive := none
    truncate := none }

/-- A concrete instance of the legacy class (stored absolute path, all
automatic flags on as the setter defaults them, no stream). -/
def sampleP0Log : P0Log.Log :=
  { file := "/w/logs/latest.log"
    automaticClose := true
    automaticCreate := true
    automaticOpen := true
    recursive := true
    streamExists := false
    streamDestroyed := false }

/-- **C6 (the code evaluated at the failing input).**  The legacy options
setter guards each field with `options[key] instanceof target`.  A
primitive boolean is not an `instanceof Boolean`, so the well-typed
caller value `automaticClose: false` is silently replaced by the default
`true` — no primitive boolean can ever change a boolean option — while a
`Boolean` wrapper object and a function value do pass their guards. -/
theorem c6_primitive_boolean_replaced :
    P0Log.setOptions
      { automaticClose := some (P0Log.JSVal.bool false), automaticCreate := none,
        automaticOpen := none, formatter := none, logger := none, recursive := none }
      = { automaticClose := P0Log.JSVal.bool true,
          automaticCreate := P0Log.JSVal.bool true,
          automaticOpen := P0Log.JSVal.bool true,
          formatter := P0Log.JSVal.fn P0Log.defaultFormatterTag,
          logger := P0Log.JSVal.fn P0Log.defaultLoggerTag,
          recursive := P0Log.JSVal.bool true }
    ∧ P0Log.instanceOf (P0Log.JSVal.bool false) P0Log.Target.booleanT = false
    ∧ (P0Log.setOptions
        { automaticClose := some (P0Log.JSVal.boolObject false), automaticCreate := none,
          automaticOpen := none, formatter := none, logger := none, recursive := none }).automaticClose
      = P0Log.JSVal.boolObject false
    ∧ (P0Log.setOptions
        { automaticClose := none, automaticCreate := none,
          automaticOpen := none, formatter := some (P0Log.JSVal.fn 7), logger := none,
          recursive := none }).formatter
      = P0Log.JSVal.fn 7 := by
  refine ⟨by decide, by decide, by decide, by decide⟩

/-- **C7 counterexample.**  In the current class (`src/classes/Log.js`)
`get file()` evaluates `path.resolve(this.options.file)` on every access:
with the stored relative default `"logs/latest.log"`, reading `file` under
working directory `/a` and then under `/b` returns two different absolute
paths, where the claim requires every later read to return the same
value. -/
theorem c7_path_reresolved_counterexample :
    LogJs.Log.file "/a" sampleLog = "/a/logs/latest.log"
    ∧ LogJs.Log.file "/b" sampleLog = "/b/logs/latest.log"
    ∧ LogJs.Log.file "/a" sampleLog ≠ LogJs.Log.file "/b" sampleLog := by
  refine ⟨by decide, by decide, by decide⟩

/-- **C7 (amended).**  Resolution yields an absolute location (given an
absolute working directory).  In the legacy class the input is resolved
once, by the `file` setter at construction/assignment, and later reads
return that stored value.  In the current class the raw input is stored
and `get file` re-resolves it on every access: reads are stable only when
the stored input is itself absolute, and for a relative stored input two
reads agree exactly when they happen under the same working directory. -/
theorem c7_path_resolution_amended :
    (∀ (cwd input : String), jsIsAbsolute cwd = true →
      jsIsAbsolute (P0Log.setFile cwd input) = true)
    ∧ (∀ (cwd1 cwd2 : String) (s : LogJs.Log Nat),
      jsIsAbsolute s.options.file = true →
      LogJs.Log.file cwd1 s = LogJs.Log.file cwd2 s)
    ∧ (∀ (cwd : String) (s : LogJs.Log Nat), jsIsAbsolute cwd = true →
      jsIsAbsolute (LogJs.Log.file cwd s) = true)
    ∧ (∀ (cwd1 cwd2 : String) (s : LogJs.Log Nat),
      jsIsAbsolute s.options.file = false →
      LogJs.Log.file cwd1 s = LogJs.Log.file cwd2 s → cwd1 = cwd2) := by
  have habs : ∀ (cwd p : String), jsIsAbsolute cwd = true →
      jsIsAbsolute (pathResolve cwd p) = true := by
    intro cwd p h
    unfold pathResolve
    split
    · assumption
    · simp only [jsIsAbsolute, data_append, List.head?_append]
      simp only [jsIsAbsolute, beq_iff_eq] at h
      simp [h]
  refine ⟨fun cwd input h => habs cwd input h, fun cwd1 cwd2 s h => ?_,
    fun cwd s h => habs cwd s.options.file h, fun cwd1 cwd2 s h heq => ?_⟩
  · simp [LogJs.Log.file, pathResolve, h]
  · simp only [LogJs.Log.file, pathResolve, h, if_neg, Bool.false_eq_true,
      not_false_iff, if_false] at heq
    have hdata := congrArg String.data heq
    simp only [data_append] at hdata
    rw [List.append_assoc, List.append_assoc] at hdata
    exact String.ext (List.append_cancel_right hdata)

/-- **C7 witness**: `c7_path_resolution_amended` at concrete inputs — the
legacy setter run in `/w` stores an absolute path, and the current class's
`file` reads agree across working directories when the stored input is
absolute. -/
theorem c7_path_resolution_witness :
    jsIsAbsolute (P0Log.setFile "/w" "logs/latest.log") = true
    ∧ LogJs.Log.file "/a"
        { sampleLog with options := { sampleOptions with file := "/var/log/app.log" } }
      = LogJs.Log.file "/b"
        { sampleLog with options := { sampleOptions with file := "/var/log/app.log" } } :=
  ⟨c7_path_resolution_amended.1 "/w" "logs/latest.log" (by decide),
    c7_path_resolution_amended.2.1 "/a" "/b"
      { sampleLog with options := { sampleOptions with file := "/var/log/app.log" } }
      (by decide)⟩

theorem find_filter_ne (l : List (String × String)) (p : String) :
    (l.filter (fun kv => kv.1 != p)).find? (fun kv => kv.1 == p) = none := by
  induction l with
  | nil => rfl
  | cons kv t ih =>
    by_cases h : kv.1 = p
    · simp [List.filter_cons, h, ih]
    · simp [List.filter_cons, h, List.find?_cons, ih]

theorem fileContent_setFile (fs : FS) (p c : String) :
    (fs.setFile p c).fileContent p = some c := by
  simp [FS.setFile, FS.fileContent, List.find?_cons]

theorem fileExists_setFile (fs : FS) (p c : String) :
    (fs.setFile p c).fileExists p = true := by
  simp [FS.fileExists, fileContent_setFile]

theorem fileContent_removeFile (fs : FS) (p : String) :
    (fs.removeFile p).fileContent p = none := by
  simp [FS.removeFile, FS.fileContent, find_filter_ne]

theorem fileExists_removeFile (fs : FS) (p : String) :
    (fs.removeFile p).fileExists p = false := by
  simp [FS.fileExists, fileContent_removeFile]

theorem fileContent_mkdir (fs : FS) (d p : String) :
    (fs.mkdir d).fileContent p = fs.fileContent p := rfl

theorem create_fst (cwd : String) (o : LogJs.CallOptions α) (s : LogJs.Log α)
    (fs : FS) : (LogJs.Log.create cwd o s fs).1 = s := by
  unfold LogJs.Log.create
  dsimp only
  split <;> rfl

theorem create_fileExists (cwd : String) (o : LogJs.CallOptions α)
    (s : LogJs.Log α) (fs : FS) :
    ((LogJs.Log.create cwd o s fs).2).fileExists (LogJs.Log.file cwd s) = true := by
  unfold LogJs.Log.create
  dsimp only
  split
  · assumption
  · split <;> simp [fileExists_setFile]

/-- A concrete filesystem: the parent directory and the log file exist with
non-empty content. -/
def sampleFS : FS :=
  { dirs := ["/w/logs"], files := [("/w/logs/latest.log", "abc")] }

/-- **C9.**  `create()` is idempotent on an existing file, in both classes:
when the file exists it performs no filesystem action (the returned state
and filesystem are exactly the inputs, so content is unchanged) and
returns the instance; only when the file is absent does it create the
(empty) file plus, if missing, its parent directory. -/
theorem c9_create_idempotent :
    (∀ (α : Type) (cwd : String) (o : LogJs.CallOptions α) (s : LogJs.Log α)
        (fs : FS),
      fs.fileExists (LogJs.Log.file cwd s) = true →
        LogJs.Log.create cwd o s fs = (s, fs))
    ∧ (∀ (α : Type) (cwd : String) (o : LogJs.CallOptions α) (s : LogJs.Log α)
        (fs : FS),
      fs.fileExists (LogJs.Log.file cwd s) = false →
        (LogJs.Log.create cwd o s fs).1 = s
        ∧ ((LogJs.Log.create cwd o s fs).2).fileContent (LogJs.Log.file cwd s)
            = some "")
    ∧ (∀ (o : P0Log.CallOptions) (s : P0Log.Log) (fs : FS),
      fs.fileExists s.file = true → P0Log.Log.create o s fs = (s, fs)) := by
  refine ⟨fun α cwd o s fs h => ?_, fun α cwd o s fs h => ?_, fun o s fs h => ?_⟩
  · unfold LogJs.Log.create
    dsimp only
    rw [if_pos h]
  · unfold LogJs.Log.create
    dsimp only
    rw [if_neg (by simp [h])]
    refine ⟨rfl, ?_⟩
    split <;> simp [fileContent_setFile]
  · unfold P0Log.Log.create
    rw [if_pos h]

/-- **C9 witness**: `c9_create_idempotent` on an existing file: `create` is
the identity on instance and filesystem. -/
theorem c9_create_idempotent_witness :
    LogJs.Log.create "/w" noCall sampleLog sampleFS = (sampleLog, sampleFS)
    ∧ P0Log.Log.create noP0Call sampleP0Log sampleFS = (sampleP0Log, sampleFS) :=
  ⟨c9_create_idempotent.1 Nat "/w" noCall sampleLog sampleFS (by decide),
    c9_create_idempotent.2.2 noP0Call sampleP0Log sampleFS (by decide)⟩

/-- **C5 (amended).**  In the current class (`src/classes/Log.js`), opening
with merged `truncate` disabled preserves the file content: the pre-open
content is read and re-written to the new handle, so `open({truncate:false})`
followed by `close()` leaves the content equal to its value before `open()`
and returns the instance to its closed state; with `truncate` enabled the
file starts empty after `open()`.  The legacy class (`part_000`) instead
always truncates on `open` — `createWriteStream` empties the file and no
`truncate` option is consulted. -/
theorem c5_open_truncate_amended :
    (∀ (α : Type) (cwd : String) (o : LogJs.CallOptions α) (s : LogJs.Log α)
        (fs : FS) (c : String),
      s.streamOpen = false →
      fs.fileContent (LogJs.Log.file cwd s) = some c →
      o.truncate.getD s.options.truncate = false →
        LogJs.Log.open cwd o s fs
          = .ok ({ s with streamOpen := true },
              fs.setFile (LogJs.Log.file cwd s) c)
        ∧ (fs.setFile (LogJs.Log.file cwd s) c).fileContent (LogJs.Log.file cwd s)
            = some c
        ∧ LogJs.Log.close { s with streamOpen := true }
            (fs.setFile (LogJs.Log.file cwd s) c)
          = .ok (s, fs.setFile (LogJs.Log.file cwd s) c))
    ∧ (∀ (α : Type) (cwd : String) (o : LogJs.CallOptions α) (s : LogJs.Log α)
        (fs : FS),
      s.streamOpen = false →
      fs.fileExists (LogJs.Log.file cwd s) = true →
      o.truncate.getD s.options.truncate = true →
        LogJs.Log.open cwd o s fs
          = .ok ({ s with streamOpen := true },
              fs.setFile (LogJs.Log.file cwd s) "")
        ∧ (fs.setFile (LogJs.Log.file cwd s) "").fileContent (LogJs.Log.file cwd s)
            = some "")
    ∧ (∀ (o : P0Log.CallOptions) (s : P0Log.Log) (fs : FS),
      s.online = false →
      fs.fileExists s.file = true →
        P0Log.Log.open o s fs
          = .ok ({ s with streamExists := true, streamDestroyed := false },
              fs.setFile s.file "")
        ∧ (fs.setFile s.file "").fileContent s.file = some "") := by
  refine ⟨fun α cwd o s fs c h1 h2 h3 => ?_, fun α cwd o s fs h1 h2 h3 => ?_,
    fun o s fs h1 h2 => ?_⟩
  · have hex : fs.fileExists (LogJs.Log.file cwd s) = true := by
      simp [FS.fileExists, h2]
    have hopen : LogJs.Log.open cwd o s fs
        = .ok ({ s with streamOpen := true },
            fs.setFile (LogJs.Log.file cwd s) c) := by
      unfold LogJs.Log.open
      dsimp only
      rw [if_pos hex]
      dsimp only
      rw [if_neg (by simp [h1]), if_neg (by simp [h3]), h2]
      rfl
    refine ⟨hopen, fileContent_setFile _ _ _, ?_⟩
    unfold LogJs.Log.close
    rw [if_pos rfl]
    have hs : ({ { s with streamOpen := true } with streamOpen := false }
        : LogJs.Log α) = s := by
      cases s with
      | mk opts st =>
        subst h1
        rfl
    rw [hs]
  · have hopen : LogJs.Log.open cwd o s fs
        = .ok ({ s with streamOpen := true },
            fs.setFile (LogJs.Log.file cwd s) "") := by
      unfold LogJs.Log.open
      dsimp only
      rw [if_pos h2]
      dsimp only
      rw [if_neg (by simp [h1]), if_pos h3]
    exact ⟨hopen, fileContent_setFile _ _ _⟩
  · have hopen : P0Log.Log.open o s fs
        = .ok ({ s with streamExists := true, streamDestroyed := false },
            fs.setFile s.file "") := by
      unfold P0Log.Log.open
      dsimp only
      rw [if_pos h2]
      dsimp only
      rw [if_neg (by simp [h1])]
    exact ⟨hopen, fileContent_setFile _ _ _⟩

/-- **C5 counterexample.**  In the legacy class (`part_000`), `open` with
`truncate: false` supplied does NOT preserve the content: the option is
ignored and `createWriteStream` truncates, so a file holding `"abc"` holds
`""` after `open({truncate:false})`, where the claim requires `"abc"`. -/
theorem c5_open_truncate_counterexample :
    P0Log.Log.open { noP0Call with truncate := some false } sampleP0Log sampleFS
      = .ok ({ sampleP0Log with streamExists := true, streamDestroyed := false },
          sampleFS.setFile "/w/logs/latest.log" "")
    ∧ sampleFS.fileContent "/w/logs/latest.log" = some "abc"
    ∧ (sampleFS.setFile "/w/logs/latest.log" "").fileContent "/w/logs/latest.log"
        = some ""
    ∧ (some "" : Option String) ≠ some "abc" := by
  refine ⟨rfl, rfl, rfl, by decide⟩

/-- **C5 witness**: `c5_open_truncate_amended` at a concrete state — the
current class's `open({truncate:false})` then `close()` preserves the
content `"abc"`. -/
theorem c5_open_truncate_witness :
    LogJs.Log.open "/w" { noCall with truncate := some false } sampleLog sampleFS
      = .ok ({ sampleLog with streamOpen := true },
          sampleFS.setFile (LogJs.Log.file "/w" sampleLog) "abc")
    ∧ (sampleFS.setFile (LogJs.Log.file "/w" sampleLog) "abc").fileContent
        (LogJs.Log.file "/w" sampleLog) = some "abc"
    ∧ LogJs.Log.close { sampleLog with streamOpen := true }
        (sampleFS.setFile (LogJs.Log.file "/w" sampleLog) "abc")
      = .ok (sampleLog, sampleFS.setFile (LogJs.Log.file "/w" sampleLog) "abc") :=
  c5_open_truncate_amended.1 Nat "/w" { noCall with truncate := some false }
    sampleLog sampleFS "abc" rfl (by decide) rfl

/-- **C2 (amended).**  In the current class (`src/classes/Log.js`) the claim
holds in full: `delete()` raises `MissingFileError` when the file is
absent; with the file present and the stream open, merged `autoClose`
disabled raises `StreamOpenError` before any filesystem action (the model
unlinks only on the success path, so the file still exists); with
`autoClose` enabled the stream is closed first and the file then removed.
The legacy class (`part_000`) behaves the same on an existing file but,
when the file is absent, RETURNS the instance silently instead of
raising. -/
theorem c2_delete_policy_amended :
    (∀ (α : Type) (cwd : String) (o : LogJs.CallOptions α) (s : LogJs.Log α)
        (fs : FS),
      fs.fileExists (LogJs.Log.file cwd s) = false →
        LogJs.Log.delete cwd o s fs = .error .missingFile)
    ∧ (∀ (α : Type) (cwd : String) (o : LogJs.CallOptions α) (s : LogJs.Log α)
        (fs : FS),
      fs.fileExists (LogJs.Log.file cwd s) = true → s.streamOpen = true →
      o.autoClose.getD s.options.autoClose = false →
        LogJs.Log.delete cwd o s fs = .error .streamOpen)
    ∧ (∀ (α : Type) (cwd : String) (o : LogJs.CallOptions α) (s : LogJs.Log α)
        (fs : FS),
      fs.fileExists (LogJs.Log.file cwd s) = true → s.streamOpen = true →
      o.autoClose.getD s.options.autoClose = true →
        LogJs.Log.delete cwd o s fs
          = .ok ({ s with streamOpen := false },
              fs.removeFile (LogJs.Log.file cwd s))
        ∧ (fs.removeFile (LogJs.Log.file cwd s)).fileExists (LogJs.Log.file cwd s)
            = false)
    ∧ (∀ (α : Type) (cwd : String) (o : LogJs.CallOptions α) (s : LogJs.Log α)
        (fs : FS),
      fs.fileExists (LogJs.Log.file cwd s) = true → s.streamOpen = false →
        LogJs.Log.delete cwd o s fs = .ok (s, fs.removeFile (LogJs.Log.file cwd s)))
    ∧ (∀ (o : P0Log.CallOptions) (s : P0Log.Log) (fs : FS),
      fs.fileExists s.file = false → P0Log.Log.delete o s fs = .ok (s, fs))
    ∧ (∀ (o : P0Log.CallOptions) (s : P0Log.Log) (fs : FS),
      fs.fileExists s.file = true → s.online = true →
      o.automaticClose.getD s.automaticClose = false →
        P0Log.Log.delete o s fs = .error .streamOpen)
    ∧ (∀ (o : P0Log.CallOptions) (s : P0Log.Log) (fs : FS),
      fs.fileExists s.file = true → s.online = true →
      o.automaticClose.getD s.automaticClose = true →
        P0Log.Log.delete o s fs
          = .ok ({ s with streamDestroyed := true }, fs.removeFile s.file)) := by
  refine ⟨fun α cwd o s fs h => ?_, fun α cwd o s fs h1 h2 h3 => ?_,
    fun α cwd o s fs h1 h2 h3 => ?_, fun α cwd o s fs h1 h2 => ?_,
    fun o s fs h => ?_, fun o s fs h1 h2 h3 => ?_, fun o s fs h1 h2 h3 => ?_⟩
  · simp [LogJs.Log.delete, h]
  · simp [LogJs.Log.delete, h1, h2, h3]
  · refine ⟨?_, fileExists_removeFile _ _⟩
    simp [LogJs.Log.delete, LogJs.Log.close, h1, h2, h3]
  · simp [LogJs.Log.delete, h1, h2]
  · simp [P0Log.Log.delete, h]
  · simp [P0Log.Log.delete, h1, h2, h3]
  · have hce : P0Log.Log.closeEffect o s fs
        = ({ s with streamDestroyed := true }, fs) := by
      unfold P0Log.Log.closeEffect
      have hcr : (if o.automaticCreate.getD s.automaticCreate
          then P0Log.Log.create o s fs else (s, fs)) = (s, fs) := by
        split
        · unfold P0Log.Log.create
          rw [if_pos h1]
        · rfl
      rw [hcr]
      dsimp only
      rw [if_neg (by simp [h2])]
    simp [P0Log.Log.delete, h1, h2, h3, hce]

/-- **C2 counterexample.**  The claim requires `delete()` to raise
`MissingFileError` whenever the file does not exist.  The legacy class
(`part_000` line 227) instead RETURNS the instance without raising:
`delete` on an absent file succeeds with the state unchanged. -/
theorem c2_delete_missing_counterexample :
    P0Log.Log.delete noP0Call sampleP0Log { dirs := [], files := [] }
      = .ok (sampleP0Log, { dirs := [], files := [] })
    ∧ P0Log.Log.delete noP0Call sampleP0Log { dirs := [], files := [] }
      ≠ .error .missingFile := by
  refine ⟨rfl, ?_⟩
  intro h
  rw [show P0Log.Log.delete noP0Call sampleP0Log { dirs := [], files := [] }
      = .ok (sampleP0Log, { dirs := [], files := [] }) from rfl] at h
  exact Except.noConfusion h

/-- **C2 witness**: `c2_delete_policy_amended` at concrete states — an open
stream with `autoClose` disabled raises `StreamOpenError` (current class),
and an absent file raises `MissingFileError` (current class). -/
theorem c2_delete_policy_witness :
    LogJs.Log.delete "/w" noCall { sampleLog with streamOpen := true } sampleFS
      = .error .streamOpen
    ∧ LogJs.Log.delete "/w" noCall sampleLog { dirs := [], files := [] }
      = .error .missingFile :=
  ⟨c2_delete_policy_amended.2.1 Nat "/w" noCall
      { sampleLog with streamOpen := true } sampleFS (by decide) rfl rfl,
    c2_delete_policy_amended.1 Nat "/w" noCall sampleLog
      { dirs := [], files := [] } (by decide)⟩

theorem open_ok (cwd : String) (o : LogJs.CallOptions α) (s : LogJs.Log α)
    (fs : FS) (h : fs.fileExists (LogJs.Log.file cwd s) = true) :
    LogJs.Log.open cwd o s fs
      = if s.streamOpen then .ok (s, fs)
        else .ok ({ s with streamOpen := true },
            fs.setFile (LogJs.Log.file cwd s)
              (if o.truncate.getD s.options.truncate then ""
               else (fs.fileContent (LogJs.Log.file cwd s)).getD "")) := by
  unfold LogJs.Log.open
  dsimp only
  rw [if_pos h]

theorem create_fileExists_resolved (cwd : String) (o : LogJs.CallOptions α)
    (s : LogJs.Log α) (fs : FS) :
    ((LogJs.Log.create cwd o s fs).2).fileExists (pathResolve cwd s.options.file)
      = true := by
  have h := create_fileExists cwd o s fs
  simpa [LogJs.Log.file] using h

theorem open_ok_resolved (cwd : String) (o : LogJs.CallOptions α)
    (s : LogJs.Log α) (fs : FS)
    (h : fs.fileExists (pathResolve cwd s.options.file) = true) :
    LogJs.Log.open cwd o s fs
      = if s.streamOpen then .ok (s, fs)
        else .ok ({ s with streamOpen := true },
            fs.setFile (pathResolve cwd s.options.file)
              (if o.truncate.getD s.options.truncate then ""
               else (fs.fileContent (pathResolve cwd s.options.file)).getD "")) := by
  have h2 := open_ok cwd o s fs (by simpa [LogJs.Log.file] using h)
  simpa [LogJs.Log.file] using h2

theorem write_err (cwd : String) (o : LogJs.CallOptions α) (rest : List α)
    (s : LogJs.Log α) (fs : FS) :
    (LogJs.Log.write cwd o rest s fs).2.2
      = (if fs.fileExists (LogJs.Log.file cwd s) = false
            ∧ s.options.autoCreate = false
         then .error .missingFile
         else if s.streamOpen = false ∧ s.options.autoOpen = false
         then .error .notOpen
         else .ok ((o.formatter.getD s.options.formatter)
            (objectAssignList
              (o.formatterParameters.getD s.options.formatterParameters) rest))) := by
  unfold LogJs.Log.write
  dsimp only
  cases hfp : o.formatterParameters <;>
    cases hE : fs.fileExists (pathResolve cwd s.options.file) <;>
      cases hAC : s.options.autoCreate <;>
        cases hSO : s.streamOpen <;>
          cases hAO : s.options.autoOpen <;>
            simp [LogJs.Log.file, hfp, hE, hAC, hSO, hAO, create_fst,
              create_fileExists_resolved, open_ok_resolved]

/-- **C1 counterexample.**  The claim says `write` fails with
`MissingFileError` exactly when the file is absent AND the merged options
(per-call over instance) have `autoCreate` disabled.  In
`src/classes/Log.js` the gate reads `this.options.autoCreate` (the instance
flag): with the file absent, the instance flag off and the per-call option
`{autoCreate: true}` — merged `autoCreate` enabled — `write` still raises
`MissingFileError` instead of self-healing. -/
theorem c1_write_merged_flag_counterexample :
    (LogJs.Log.write "/w" { noCall with autoCreate := some true } ([] : List Nat)
        { sampleLog with streamOpen := true } { dirs := [], files := [] }).2.2
      = .error .missingFile
    ∧ ({ noCall with autoCreate := some true } : LogJs.CallOptions Nat).autoCreate.getD
        sampleLog.options.autoCreate = true := by
  exact ⟨rfl, rfl⟩

/-- **C1 (amended).**  `Log.write` fails with `MissingFileError` exactly when
the file is absent and the INSTANCE option `autoCreate` is disabled, and
with `NotOpenError` exactly when that first gate passes, the stream is
closed and the INSTANCE option `autoOpen` is disabled; per-call entry
options do not influence the gates (the code reads `this.options`), though
the self-heal calls themselves receive the merged options.  When the
relevant instance flag is enabled, `write` self-heals (creates the file /
opens the stream) and returns the formatted entry instead of raising. -/
theorem c1_write_gates_amended (α : Type) (cwd : String)
    (o : LogJs.CallOptions α) (rest : List α) (s : LogJs.Log α) (fs : FS) :
    ((LogJs.Log.write cwd o rest s fs).2.2 = .error .missingFile
      ↔ fs.fileExists (LogJs.Log.file cwd s) = false
        ∧ s.options.autoCreate = false)
    ∧ ((LogJs.Log.write cwd o rest s fs).2.2 = .error .notOpen
      ↔ (fs.fileExists (LogJs.Log.file cwd s) = true ∨ s.options.autoCreate = true)
        ∧ s.streamOpen = false ∧ s.options.autoOpen = false)
    ∧ ((fs.fileExists (LogJs.Log.file cwd s) = true ∨ s.options.autoCreate = true) →
      (s.streamOpen = true ∨ s.options.autoOpen = true) →
      (LogJs.Log.write cwd o rest s fs).2.2
        = .ok ((o.formatter.getD s.options.formatter)
            (objectAssignList
              (o.formatterParameters.getD s.options.formatterParameters) rest))) := by
  rw [write_err]
  cases hE : fs.fileExists (LogJs.Log.file cwd s) <;>
    cases hAC : s.options.autoCreate <;>
      cases hSO : s.streamOpen <;>
        cases hAO : s.options.autoOpen <;>
          simp

/-- **C1 witness**: `c1_write_gates_amended` at a concrete state (file
present, stream open): `write` succeeds and returns the formatted entry. -/
theorem c1_write_gates_witness :
    (LogJs.Log.write "/w" noCall ([1] : List Nat)
        { sampleLog with streamOpen := true } sampleFS).2.2 = .ok "E" := by
  have h := (c1_write_gates_amended Nat "/w" noCall [1]
      { sampleLog with streamOpen := true } sampleFS).2.2
    (Or.inl (by decide)) (Or.inl rfl)
  simpa using h

theorem objectAssignList_twice {α : Type} (init a1 a2 : List α)
    (h : a2.length ≤ a1.length) :
    objectAssignList (objectAssignList init a1) a2
      = a2 ++ a1.drop a2.length ++ init.drop a1.length := by
  unfold objectAssignList
  rw [List.drop_append_eq_append_drop, Nat.sub_eq_zero_of_le h, List.drop_zero,
    List.append_assoc]

theorem write_simple (cwd : String) (o : LogJs.CallOptions α) (rest : List α)
    (s : LogJs.Log α) (fs : FS)
    (hfp : o.formatterParameters = none)
    (hex : fs.fileExists (pathResolve cwd s.options.file) = true)
    (hso : s.streamOpen = true) :
    LogJs.Log.write cwd o rest s fs
      = ({ s with options :=
            { s.options with formatterParameters :=
                objectAssignList s.options.formatterParameters rest } },
          fs.appendFile (pathResolve cwd s.options.file)
            ((o.formatter.getD s.options.formatter)
              (objectAssignList s.options.formatterParameters rest)),
          .ok ((o.formatter.getD s.options.formatter)
            (objectAssignList s.options.formatterParameters rest))) := by
  unfold LogJs.Log.write
  dsimp only
  simp [LogJs.Log.file, hfp, hex, hso]

/-- **C10.**  When the merged `formatterParameters` is the instance-level
array (no per-call array supplied), `write(options, ...rest)` mutates that
persisted array in place: `Object.assign` overwrites its elements by index,
so after the call the instance options hold the merged list, and a second
`write` passing fewer rest parameters invokes the formatter with the first
call's remaining parameters still present (`args2 ++ args1.drop
args2.length ++ ...`) rather than with a fresh per-call list. -/
theorem c10_write_mutates_instance_params (α : Type) (cwd : String)
    (o : LogJs.CallOptions α) (args1 args2 : List α) (s : LogJs.Log α) (fs : FS)
    (hfp : o.formatterParameters = none)
    (hex : fs.fileExists (pathResolve cwd s.options.file) = true)
    (hso : s.streamOpen = true)
    (hlen : args2.length ≤ args1.length) :
    ∃ s1 fs1 e1 s2 fs2 e2,
      LogJs.Log.write cwd o args1 s fs = (s1, fs1, .ok e1)
      ∧ LogJs.Log.write cwd o args2 s1 fs1 = (s2, fs2, .ok e2)
      ∧ s1.options.formatterParameters
          = objectAssignList s.options.formatterParameters args1
      ∧ s2.options.formatterParameters
          = args2 ++ args1.drop args2.length
            ++ s.options.formatterParameters.drop args1.length
      ∧ e2 = (o.formatter.getD s.options.formatter)
          (args2 ++ args1.drop args2.length
            ++ s.options.formatterParameters.drop args1.length) := by
  have h1 := write_simple cwd o args1 s fs hfp hex hso
  have h2 := write_simple cwd o args2
    ({ s with options :=
        { s.options with formatterParameters :=
            objectAssignList s.options.formatterParameters args1 } })
    (fs.appendFile (pathResolve cwd s.options.file)
      ((o.formatter.getD s.options.formatter)
        (objectAssignList s.options.formatterParameters args1)))
    hfp (by simpa using fileExists_setFile _ _ _) hso
  refine ⟨_, _, _, _, _, _, h1, h2, rfl, ?_, ?_⟩
  · simp [objectAssignList_twice _ _ _ hlen]
  · simp [objectAssignList_twice _ _ _ hlen]

/-- **C10 witness**: `c10_write_mutates_instance_params` at a concrete
state — after `write(options, 1, 2, 3)`, a second `write(options, 9)`
leaves the persisted instance parameters as `[9, 2, 3]`: the earlier
call's remaining parameters survive. -/
theorem c10_write_mutates_instance_params_witness :
    (LogJs.Log.write "/w" noCall [9]
        ((LogJs.Log.write "/w" noCall [1, 2, 3]
            { sampleLog with streamOpen := true } sampleFS).1)
        ((LogJs.Log.write "/w" noCall [1, 2, 3]
            { sampleLog with streamOpen := true } sampleFS).2.1)).1.options.formatterParameters
      = [9, 2, 3] := by
  obtain ⟨s1, fs1, e1, s2, fs2, e2, h1, h2, hp1, hp2, he2⟩ :=
    c10_write_mutates_instance_params Nat "/w" noCall [1, 2, 3] [9]
      { sampleLog with streamOpen := true } sampleFS rfl (by decide) rfl
      (by decide)
  rw [h1]
  simp only []
  rw [h2]
  simpa using hp2
